import Mathlib

/-!
Verification development for the `omnom-nom/order` HTTP service scaffold
(Go packages `apiserver` and `api`).

The development shallowly embeds the parts of the source that the
specification talks about:

* the server lifecycle component (`apiserver/server.go`): the
  `ServerImpl` state record, the functional options (`ServerAddress`,
  `ServerIP`, `ServerPort`, ...), the constructor `New`, and the
  operations `StartHTTP`, `StartHTTPS`, `Stop`, `Endpoint`;
* the provided middleware behaviours (`apiserver/middleware.go`), in
  particular the service gatekeeper;
* the GorillaMux service factory (`Make`, `updateRoutes`, and the
  per-route middleware-chain computation).

Go strings are Lean `String`s, Go ints are `Nat`, Go maps are modelled
as association lists whose list order stands for the (unspecified) map
iteration order, and Go slices — where aliasing matters — are modelled
as slice headers over an explicit heap of backing arrays.  Fallible Go
code returns an explicit outcome type; a Go runtime panic (e.g. an
index out of range) is a distinguished `fault` outcome.
-/

namespace OrderSpec

/-! ## Server status and server state (`apiserver/server.go`) -/

/-- `ServerStatus` from `part_001` (`apiserver` package types):
`Stopped` (initial, value 0), `Starting`, `Running`. -/
inductive ServerStatus where
  | Stopped
  | Starting
  | Running
deriving DecidableEq, Repr

/-- State of `ServerImpl` (`server.go`).  Fields that the claims talk
about are modelled directly:

* `serverStatus` — the `serverStatus ServerStatus` field;
* `hasStatusListener` / `notifications` — the `statusListener` field,
  modelled as a presence flag plus the trace of `(old, new)` pairs the
  listener has been called with;
* `addr` — `server.Addr`;
* `tlsConfigured` — whether `server.TLSConfig` is non-nil;
* `hasErrorLog` — whether `server.ErrorLog` is non-nil;
* `shutdownTimeoutSec` — `shutdownTimeout` (seconds);
* `handler` — an identifier for the installed `http.Handler`. -/
structure ServerImpl where
  serverStatus : ServerStatus
  hasStatusListener : Bool
  notifications : List (ServerStatus × ServerStatus)
  addr : String
  tlsConfigured : Bool
  hasErrorLog : Bool
  shutdownTimeoutSec : Nat
  handler : Nat
deriving DecidableEq, Repr

/-- `setStatus` (`server.go`): record the old status, write the new
one, and — if a listener is installed — invoke it with `(old, new)`
(modelled by appending to the notification trace).  The caller holds
the lock, exactly as in the source. -/
def setStatus (srv : ServerImpl) (status : ServerStatus) : ServerImpl :=
  let old := srv.serverStatus
  let srv1 := { srv with serverStatus := status }
  if srv.hasStatusListener then
    { srv1 with notifications := srv1.notifications ++ [(old, status)] }
  else
    srv1

/-- `ServerImpl.Endpoint` (`server.go`): `"http" + "://" + srv.server.Addr`. -/
def ServerImpl.Endpoint (srv : ServerImpl) : String :=
  "http" ++ "://" ++ srv.addr

/-- `IsRunning` (`server.go`): status snapshot compared with `Running`. -/
def ServerImpl.IsRunning (srv : ServerImpl) : Bool :=
  srv.serverStatus = ServerStatus.Running

/-- `IsStopped` (`server.go`): status snapshot compared with `Stopped`. -/
def ServerImpl.IsStopped (srv : ServerImpl) : Bool :=
  srv.serverStatus = ServerStatus.Stopped

/-! ## Start / Stop operations -/

/-- Errors returned by `StartHTTP` / `StartHTTPS`.  In the source these
are `errors.New` values; the two distinct messages are modelled as two
constructors:

* `alreadyActive ep` — `"api server is already running (or starting) on: " + ep`
  (HTTP) / `"api server is already running on: " + ep` (HTTPS);
* `noTLS` — `"https api server can not start without SSL certificate and private key"`. -/
inductive StartErr where
  | alreadyActive (endpoint : String)
  | noTLS
deriving DecidableEq, Repr

/-- Result of a start operation: the synchronously updated server
state, the returned error, and whether the accept-loop goroutine was
spawned. -/
structure StartResult where
  state : ServerImpl
  error : Option StartErr
  spawned : Bool
deriving DecidableEq, Repr

/-- `StartHTTP` (`server.go`), synchronous part.  Under the lock: if
the status is not `Stopped`, return the "already running (or
starting)" error and change nothing.  Otherwise spawn the accept-loop
goroutine (which blocks on the lock until this call returns), set
status to `Starting`, and return `nil`. -/
def StartHTTP (srv : ServerImpl) : StartResult :=
  if srv.serverStatus ≠ ServerStatus.Stopped then
    { state := srv
      error := some (StartErr.alreadyActive srv.Endpoint)
      spawned := false }
  else
    { state := setStatus srv ServerStatus.Starting
      error := none
      spawned := true }

/-- `StartHTTPS` (`server.go`), synchronous part: as `StartHTTP`, but
after the status check it additionally fails (state unchanged) when
`server.TLSConfig` is nil. -/
def StartHTTPS (srv : ServerImpl) : StartResult :=
  if srv.serverStatus ≠ ServerStatus.Stopped then
    { state := srv
      error := some (StartErr.alreadyActive srv.Endpoint)
      spawned := false }
  else if srv.tlsConfigured = false then
    { state := srv
      error := some StartErr.noTLS
      spawned := false }
  else
    { state := setStatus srv ServerStatus.Starting
      error := none
      spawned := true }

/-- First action of the accept-loop goroutine spawned by `StartHTTP` /
`StartHTTPS`: under the lock, `setStatus(Running)`; then the loop
blocks in `ListenAndServe`. -/
def acceptLoopEnter (srv : ServerImpl) : ServerImpl :=
  setStatus srv ServerStatus.Running

/-- Last action of the accept-loop goroutine, after `ListenAndServe`
returns (listener error or shutdown): under the lock,
`setStatus(Stopped)`. -/
def acceptLoopExit (srv : ServerImpl) : ServerImpl :=
  setStatus srv ServerStatus.Stopped

/-- Result of `Stop`: the (unchanged) server state, the returned
error, and whether a graceful `Shutdown` with the configured timeout
was initiated. -/
structure StopResult where
  state : ServerImpl
  error : Option String
  shutdownInitiated : Bool
deriving DecidableEq, Repr

/-- `Stop` (`server.go`): under the lock, if the status is `Stopped`
return the "already stopped" error; otherwise call
`server.Shutdown(ctx)` with the shutdown-timeout deadline and return
`nil`.  `Stop` itself never writes `serverStatus` (the source comment:
"DO NOT set status to Stopped, ... the status change will be reflected
by the goroutine that listens for incoming requests"). -/
def ServerImpl.Stop (srv : ServerImpl) : StopResult :=
  if srv.serverStatus = ServerStatus.Stopped then
    { state := srv
      error := some ("api server is already stopped and not listening on: " ++ srv.Endpoint)
      shutdownInitiated := false }
  else
    { state := srv
      error := none
      shutdownInitiated := true }

/-! ## Functional options and the constructor `New` -/

/-- Outcome of applying one `ServerOpt` to a server value: success
with the updated server, a returned `error`, or a Go runtime panic
(`fault`). -/
inductive OptOutcome where
  | ok (srv : ServerImpl)
  | err (msg : String)
  | fault (msg : String)
deriving DecidableEq, Repr

/-- `strings.Split(s, sep)` for a one-character separator, over the
character list of the string: splits at every occurrence of `c`; on a
string with no separator (including the empty string) it yields a
one-element list. -/
def splitOnChar (c : Char) : List Char → List (List Char)
  | [] => [[]]
  | x :: xs =>
    let rest := splitOnChar c xs
    if x = c then [] :: rest
    else
      match rest with
      | r :: rs => (x :: r) :: rs
      | [] => [[x]]

/-- A `net.IP` argument, abstracted to what `ServerIP` observes: its
string form and whether `To4()` is non-nil (a valid IPv4 address). -/
structure GoIP where
  str : String
  isV4 : Bool
deriving DecidableEq, Repr

/-- `ServerAddress` option (`server.go`): set `server.Addr`. -/
def ServerAddress (address : String) : ServerImpl → OptOutcome :=
  fun srv => OptOutcome.ok { srv with addr := address }

/-- `ServerIP` option (`server.go`): reject a non-IPv4 address with an
error; otherwise set `Addr` to `ip.String() + ":" +
strings.Split(srv.server.Addr, ":")[1]`.  Indexing `[1]` panics with
an index-out-of-range runtime error when the split produces fewer than
two pieces, i.e. when the current address contains no `':'`. -/
def ServerIP (ip : GoIP) : ServerImpl → OptOutcome :=
  fun srv =>
    if ip.isV4 = false then
      OptOutcome.err ("invalid api server IP: " ++ ip.str)
    else
      match (splitOnChar ':' srv.addr.data).get? 1 with
      | none => OptOutcome.fault "runtime error: index out of range"
      | some port => OptOutcome.ok { srv with addr := ip.str ++ ":" ++ String.mk port }

/-- `ServerPort` option (`server.go`): set `Addr` to
`strings.Split(srv.server.Addr, ":")[0] + ":" + strconv.Itoa(port)`.
The split always yields at least one piece, so index `[0]` cannot
panic. -/
def ServerPort (port : Nat) : ServerImpl → OptOutcome :=
  fun srv =>
    let host := (splitOnChar ':' srv.addr.data).headD []
    OptOutcome.ok { srv with addr := String.mk host ++ ":" ++ toString port }

/-- `ServerCertificateFile` option (`server.go`): load the
certificate/key pair (file input-output is abstracted into the
`loadOk` parameter together with the loader's error text); on success
install a TLS configuration, on failure return the load error. -/
def ServerCertificateFile (loadOk : Bool) (loadErr : String) : ServerImpl → OptOutcome :=
  fun srv =>
    if loadOk then OptOutcome.ok { srv with tlsConfigured := true }
    else OptOutcome.err loadErr

/-- `ServerLogger` option (`server.go`): install an error logger. -/
def ServerLogger : ServerImpl → OptOutcome :=
  fun srv => OptOutcome.ok { srv with hasErrorLog := true }

/-- `ServerListener` option (`server.go`): install a status listener. -/
def ServerListener : ServerImpl → OptOutcome :=
  fun srv => OptOutcome.ok { srv with hasStatusListener := true }

/-- Outcome of `New`: a server, an error (`nil` server), or a
propagated runtime panic from an option. -/
inductive NewOutcome where
  | ok (srv : ServerImpl)
  | err (msg : String)
  | fault (msg : String)
deriving DecidableEq, Repr

/-- The option-application loop of `New` (`server.go`): apply each
option in order; the first option returning an error makes `New`
return `(nil, err)` immediately, so later options are not applied; a
panicking option propagates the panic. -/
def applyOptions : ServerImpl → List (ServerImpl → OptOutcome) → NewOutcome
  | srv, [] => NewOutcome.ok srv
  | srv, o :: os =>
    match o srv with
    | OptOutcome.ok srv1 => applyOptions srv1 os
    | OptOutcome.err e => NewOutcome.err e
    | OptOutcome.fault m => NewOutcome.fault m

/-- The fresh `ServerImpl` literal built by `New` (`server.go`) before
options run: status `Stopped`, default shutdown timeout (10 s), the
given handler installed, and zero values everywhere else — in
particular `server.Addr` is the empty string. -/
def freshServer (handler : Nat) : ServerImpl :=
  { serverStatus := ServerStatus.Stopped
    hasStatusListener := false
    notifications := []
    addr := ""
    tlsConfigured := false
    hasErrorLog := false
    shutdownTimeoutSec := 10
    handler := handler }

/-- `New` (`server.go`): build the fresh server, then apply the
options in order with early abort on error. -/
def New (handler : Nat) (options : List (ServerImpl → OptOutcome)) : NewOutcome :=
  applyOptions (freshServer handler) options

/-- A sample server in the `Running` state, for concrete instantiations. -/
def runningServer : ServerImpl :=
  { freshServer 1 with serverStatus := ServerStatus.Running }

/-- A sample stopped server with TLS material configured. -/
def tlsServer : ServerImpl :=
  { freshServer 1 with tlsConfigured := true }

/-! ## Lifecycle lemmas and theorems -/

/-- `setStatus` writes exactly the requested status, whether or not a
listener is installed. -/
@[simp]
theorem setStatus_serverStatus (srv : ServerImpl) (st : ServerStatus) :
    (setStatus srv st).serverStatus = st := by
  simp only [setStatus]
  split <;> rfl

/-- Splitting a character list that does not contain the separator
yields the one-element list, as `strings.Split` does in Go. -/
theorem splitOnChar_of_not_mem (c : Char) (l : List Char) (h : c ∉ l) :
    splitOnChar c l = [l] := by
  induction l with
  | nil => rfl
  | cons x xs ih =>
    rw [List.mem_cons, not_or] at h
    have hx : ¬ x = c := fun e => h.1 e.symm
    simp only [splitOnChar, if_neg hx, ih h.2]

/-- C4: `StartHTTP()` and `StartHTTPS()` return an "already active"
error if and only if the current status is not `Stopped`, leaving the
state unchanged in that case; `StartHTTPS()` additionally fails (state
unchanged) exactly when the status is `Stopped` but no TLS material
was configured; on acceptance each synchronously sets the status to
`Starting`, spawns the accept loop, and returns success; the
transitions to `Running` and back to `Stopped` are performed by the
accept loop (`acceptLoopEnter` / `acceptLoopExit`), not by the start
call. -/
theorem c4_start_lifecycle (srv : ServerImpl) :
    ((StartHTTP srv).error.isSome ↔ srv.serverStatus ≠ ServerStatus.Stopped)
    ∧ (srv.serverStatus ≠ ServerStatus.Stopped →
        StartHTTP srv =
          { state := srv, error := some (StartErr.alreadyActive srv.Endpoint), spawned := false })
    ∧ (srv.serverStatus = ServerStatus.Stopped →
        (StartHTTP srv).error = none
        ∧ (StartHTTP srv).state.serverStatus = ServerStatus.Starting
        ∧ (StartHTTP srv).spawned = true)
    ∧ ((StartHTTPS srv).error = some (StartErr.alreadyActive srv.Endpoint) ↔
        srv.serverStatus ≠ ServerStatus.Stopped)
    ∧ ((StartHTTPS srv).error = some StartErr.noTLS ↔
        srv.serverStatus = ServerStatus.Stopped ∧ srv.tlsConfigured = false)
    ∧ ((StartHTTPS srv).error.isSome →
        (StartHTTPS srv).state = srv ∧ (StartHTTPS srv).spawned = false)
    ∧ (srv.serverStatus = ServerStatus.Stopped → srv.tlsConfigured = true →
        (StartHTTPS srv).error = none
        ∧ (StartHTTPS srv).state.serverStatus = ServerStatus.Starting
        ∧ (StartHTTPS srv).spawned = true)
    ∧ (acceptLoopEnter srv).serverStatus = ServerStatus.Running
    ∧ (acceptLoopExit srv).serverStatus = ServerStatus.Stopped := by
  cases h : srv.serverStatus <;> cases ht : srv.tlsConfigured <;>
    simp [StartHTTP, StartHTTPS, acceptLoopEnter, acceptLoopExit, h, ht]

/-- Witness for C4 at concrete servers: a fresh (stopped) server
accepts `StartHTTP`; a stopped server without TLS material is refused
by `StartHTTPS` with the state unchanged; a running server is refused
by `StartHTTP`; a stopped server with TLS accepts `StartHTTPS`. -/
theorem c4_start_lifecycle_witness :
    ((StartHTTP (freshServer 1)).error = none
      ∧ (StartHTTP (freshServer 1)).state.serverStatus = ServerStatus.Starting
      ∧ (StartHTTP (freshServer 1)).spawned = true)
    ∧ StartHTTP runningServer =
        { state := runningServer
          error := some (StartErr.alreadyActive runningServer.Endpoint)
          spawned := false }
    ∧ (StartHTTPS (freshServer 1)).error = some StartErr.noTLS
    ∧ (StartHTTPS tlsServer).error = none
    ∧ (StartHTTPS tlsServer).state.serverStatus = ServerStatus.Starting := by
  refine ⟨(c4_start_lifecycle (freshServer 1)).2.2.1 rfl,
    (c4_start_lifecycle runningServer).2.1 (by decide),
    ((c4_start_lifecycle (freshServer 1)).2.2.2.2.1).2 ⟨rfl, rfl⟩,
    ((c4_start_lifecycle tlsServer).2.2.2.2.2.2.1 rfl rfl).1,
    ((c4_start_lifecycle tlsServer).2.2.2.2.2.2.1 rfl rfl).2.1⟩

/-- C5: `Stop()` returns an "already stopped" error if and only if the
current status is `Stopped`, and in every case leaves the server state
— in particular the status field — entirely unchanged; when accepted
it initiates the bounded graceful shutdown and returns success. -/
theorem c5_stop_never_writes_status (srv : ServerImpl) :
    (srv.Stop.error.isSome ↔ srv.serverStatus = ServerStatus.Stopped)
    ∧ srv.Stop.state = srv
    ∧ (srv.serverStatus ≠ ServerStatus.Stopped →
        srv.Stop.error = none ∧ srv.Stop.shutdownInitiated = true) := by
  cases h : srv.serverStatus <;> simp [ServerImpl.Stop, h]

/-- Witness for C5: stopping a running server succeeds, initiates
shutdown, and leaves the state untouched; stopping a fresh (stopped)
server errors and also leaves the state untouched. -/
theorem c5_stop_witness :
    runningServer.Stop.state = runningServer
    ∧ runningServer.Stop.error = none
    ∧ runningServer.Stop.shutdownInitiated = true
    ∧ (freshServer 1).Stop.state = freshServer 1
    ∧ (freshServer 1).Stop.error.isSome = true := by
  refine ⟨(c5_stop_never_writes_status runningServer).2.1,
    ((c5_stop_never_writes_status runningServer).2.2 (by decide)).1,
    ((c5_stop_never_writes_status runningServer).2.2 (by decide)).2,
    (c5_stop_never_writes_status (freshServer 1)).2.1,
    ((c5_stop_never_writes_status (freshServer 1)).1).2 rfl⟩

/-- C9: applying the `ServerIP` option — even with a valid IPv4
address — to a server whose current address contains no `':'`
separator (in particular a freshly constructed server, whose address
is the empty string) does not return an error value but panics with an
index-out-of-range fault when extracting the port from the split
address. -/
theorem c9_serverIP_faults_without_colon (srv : ServerImpl) (ip : GoIP)
    (h4 : ip.isV4 = true) (hc : ':' ∉ srv.addr.data) :
    ServerIP ip srv = OptOutcome.fault "runtime error: index out of range"
    ∧ ∀ handler : Nat,
        New handler [ServerIP ip] = NewOutcome.fault "runtime error: index out of range" := by
  constructor
  · simp [ServerIP, h4, splitOnChar_of_not_mem ':' srv.addr.data hc]
  · intro handler
    simp [New, applyOptions, freshServer, ServerIP, h4, splitOnChar]

/-- Witness for C9: the concrete valid IPv4 address `10.0.0.1` applied
to a freshly constructed server faults. -/
theorem c9_serverIP_witness :
    ServerIP (GoIP.mk "10.0.0.1" true) (freshServer 0) =
      OptOutcome.fault "runtime error: index out of range"
    ∧ New 0 [ServerIP (GoIP.mk "10.0.0.1" true)] =
        NewOutcome.fault "runtime error: index out of range" := by
  refine ⟨(c9_serverIP_faults_without_colon (freshServer 0) (GoIP.mk "10.0.0.1" true)
      rfl (by decide)).1,
    (c9_serverIP_faults_without_colon (freshServer 0) (GoIP.mk "10.0.0.1" true)
      rfl (by decide)).2 0⟩

/-- C10: `Endpoint()` always returns `"http://"` concatenated with the
configured bind address, for every server state; the scheme is `http`
even when TLS material is configured. -/
theorem c10_endpoint_scheme (srv : ServerImpl) :
    srv.Endpoint = "http://" ++ srv.addr
    ∧ ∀ b : Bool,
        ServerImpl.Endpoint { srv with tlsConfigured := b } = "http://" ++ srv.addr :=
  ⟨rfl, fun _ => rfl⟩

/-! ## Requests, response writers, and the gatekeeper middleware
(`apiserver/middleware.go`) -/

/-- An HTTP request, abstracted to what the embedded middleware
observes. -/
structure Request where
  method : String
  path : String
deriving DecidableEq, Repr

/-- The observable state of an `http.ResponseWriter`: the header map,
the sequence of `WriteHeader` calls, and the sequence of `Write`
calls. -/
structure ResponseWriter where
  headers : List (String × String)
  statusWrites : List Nat
  bodyWrites : List String
deriving DecidableEq, Repr

/-- `rw.Header().Set(k, v)`: replace any existing values for the key. -/
def headerSet (rw : ResponseWriter) (k v : String) : ResponseWriter :=
  { rw with headers := rw.headers.filter (fun p => !(p.1 == k)) ++ [(k, v)] }

/-- `rw.WriteHeader(code)`. -/
def writeHeader (rw : ResponseWriter) (code : Nat) : ResponseWriter :=
  { rw with statusWrites := rw.statusWrites ++ [code] }

/-- `rw.Write(msg)`. -/
def bodyWrite (rw : ResponseWriter) (msg : String) : ResponseWriter :=
  { rw with bodyWrites := rw.bodyWrites ++ [msg] }

/-- The configured value of a header key. -/
def headerGet (rw : ResponseWriter) (k : String) : Option String :=
  rw.headers.lookup k

/-- The `serviceGatekeeper` struct (`middleware.go`): the predicate
plus the configured rejection response.  The response message is a
byte slice in Go, modelled as a string. -/
structure ServiceGatekeeperState where
  gatekeeper : Request → Bool
  responseCode : Nat
  contentType : String
  responseMessage : String
  logMessage : String

/-- `ServiceGatekeeperResponse` option: set the rejection body. -/
def ServiceGatekeeperResponse (response : String) :
    ServiceGatekeeperState → ServiceGatekeeperState :=
  fun g => { g with responseMessage := response }

/-- `ServiceGatekeeperResponseCode` option: set the rejection status
code. -/
def ServiceGatekeeperResponseCode (responseCode : Nat) :
    ServiceGatekeeperState → ServiceGatekeeperState :=
  fun g => { g with responseCode := responseCode }

/-- `ServiceGatekeeperContentType` option: set the rejection content
type. -/
def ServiceGatekeeperContentType (contentType : String) :
    ServiceGatekeeperState → ServiceGatekeeperState :=
  fun g => { g with contentType := contentType }

/-- `ServiceGatekeeperTextResponse` option: plain-text rejection body. -/
def ServiceGatekeeperTextResponse (response : String) :
    ServiceGatekeeperState → ServiceGatekeeperState :=
  fun g => { g with contentType := "text/plain", responseMessage := response }

/-- `NewServiceGatekeeper` (`middleware.go`): defaults — status 503,
log message `"service is not available"`, zero-valued content type and
body — then the options applied in order.  (The JSON-response option
delegates serialization to an external encoder and is not modelled.) -/
def NewServiceGatekeeper (gatekeeper : Request → Bool)
    (options : List (ServiceGatekeeperState → ServiceGatekeeperState)) :
    ServiceGatekeeperState :=
  options.foldl (fun g opt => opt g)
    { gatekeeper := gatekeeper
      responseCode := 503
      contentType := ""
      responseMessage := ""
      logMessage := "service is not available" }

/-- `serviceGatekeeper.ServeHTTP` (`middleware.go`): if the predicate
rejects the request, set the `Content-Type` header, write the
configured status code, write the body when it is non-empty, and
return without delegating; otherwise delegate to `next`.  The second
component counts the invocations of the continuation. -/
def serviceGatekeeperServeHTTP (g : ServiceGatekeeperState)
    (rw : ResponseWriter) (r : Request)
    (next : ResponseWriter → Request → ResponseWriter) : ResponseWriter × Nat :=
  if !(g.gatekeeper r) then
    let rw1 := headerSet rw "Content-Type" g.contentType
    let rw2 := writeHeader rw1 g.responseCode
    let rw3 := if g.responseMessage.length > 0 then bodyWrite rw2 g.responseMessage else rw2
    (rw3, 0)
  else
    (next rw r, 1)

/-- Looking up a key after `Header().Set` finds exactly the value
just set. -/
theorem lookup_filter_append (k v : String) (l : List (String × String)) :
    List.lookup k (l.filter (fun p => !(p.1 == k)) ++ [(k, v)]) = some v := by
  induction l with
  | nil => simp
  | cons p ps ih =>
    by_cases hk : p.1 = k
    · simp [List.filter_cons, hk, ih]
    · have hk2 : (k == p.1) = false := beq_eq_false_iff_ne.mpr (Ne.symm hk)
      simp [List.filter_cons, hk, List.lookup, hk2, ih]

/-- Characterization of the rejection branch of
`serviceGatekeeper.ServeHTTP`: the result is the configured write
sequence, independent of the continuation, with zero continuation
invocations. -/
theorem serviceGatekeeper_reject_eq (g : ServiceGatekeeperState)
    (rw : ResponseWriter) (r : Request)
    (next : ResponseWriter → Request → ResponseWriter)
    (hrej : g.gatekeeper r = false) :
    serviceGatekeeperServeHTTP g rw r next =
      ({ headers := rw.headers.filter (fun p => !(p.1 == "Content-Type")) ++
            [("Content-Type", g.contentType)]
         statusWrites := rw.statusWrites ++ [g.responseCode]
         bodyWrites := rw.bodyWrites ++
            (if g.responseMessage.length > 0 then [g.responseMessage] else []) }, 0) := by
  simp [serviceGatekeeperServeHTTP, hrej, headerSet, writeHeader, bodyWrite]
  split <;> simp_all

/-- C6: a gatekeeper whose predicate rejects the request never invokes
the continuation (the result is the same for every continuation, and
the invocation count is zero) and writes exactly the configured status
code, content type, and — when non-empty — body; a gatekeeper whose
predicate accepts the request invokes the continuation exactly once,
on the untouched response writer, and writes nothing itself. -/
theorem c6_gatekeeper (g : ServiceGatekeeperState) (rw : ResponseWriter)
    (r : Request) (next : ResponseWriter → Request → ResponseWriter) :
    (g.gatekeeper r = false →
      (serviceGatekeeperServeHTTP g rw r next).2 = 0
      ∧ (∀ next2, serviceGatekeeperServeHTTP g rw r next2 =
          serviceGatekeeperServeHTTP g rw r next)
      ∧ (serviceGatekeeperServeHTTP g rw r next).1.statusWrites =
          rw.statusWrites ++ [g.responseCode]
      ∧ headerGet (serviceGatekeeperServeHTTP g rw r next).1 "Content-Type" =
          some g.contentType
      ∧ (serviceGatekeeperServeHTTP g rw r next).1.bodyWrites =
          rw.bodyWrites ++
            (if g.responseMessage.length > 0 then [g.responseMessage] else []))
    ∧ (g.gatekeeper r = true →
        serviceGatekeeperServeHTTP g rw r next = (next rw r, 1)) := by
  constructor
  · intro hrej
    have heq := serviceGatekeeper_reject_eq g rw r next hrej
    refine ⟨by rw [heq],
      fun next2 => by rw [serviceGatekeeper_reject_eq g rw r next2 hrej, heq],
      by rw [heq], ?_, by rw [heq]⟩
    rw [heq]
    exact lookup_filter_append "Content-Type" g.contentType rw.headers
  · intro hacc
    simp [serviceGatekeeperServeHTTP, hacc]

/-- A sample gatekeeper that accepts exactly requests whose path is
`"ok"`, configured with a plain-text rejection body. -/
def sampleGatekeeper : ServiceGatekeeperState :=
  NewServiceGatekeeper (fun r => r.path == "ok")
    [ServiceGatekeeperTextResponse "service down", ServiceGatekeeperResponseCode 503]

/-- A sample downstream handler recording its execution in the body. -/
def sampleNext : ResponseWriter → Request → ResponseWriter :=
  fun rw _ => bodyWrite rw "downstream"

/-- The empty response writer. -/
def emptyRW : ResponseWriter :=
  { headers := [], statusWrites := [], bodyWrites := [] }

/-- Witness for C6 at a concrete gatekeeper built by
`NewServiceGatekeeper`: a rejected request produces exactly the
configured 503 plain-text response without invoking the continuation;
an accepted request is delegated exactly once. -/
theorem c6_gatekeeper_witness :
    (serviceGatekeeperServeHTTP sampleGatekeeper emptyRW (Request.mk "GET" "bad") sampleNext).2 = 0
    ∧ (serviceGatekeeperServeHTTP sampleGatekeeper emptyRW
        (Request.mk "GET" "bad") sampleNext).1.statusWrites = [503]
    ∧ headerGet (serviceGatekeeperServeHTTP sampleGatekeeper emptyRW
        (Request.mk "GET" "bad") sampleNext).1 "Content-Type" = some "text/plain"
    ∧ (serviceGatekeeperServeHTTP sampleGatekeeper emptyRW
        (Request.mk "GET" "bad") sampleNext).1.bodyWrites = ["service down"]
    ∧ serviceGatekeeperServeHTTP sampleGatekeeper emptyRW (Request.mk "GET" "ok") sampleNext =
        (sampleNext emptyRW (Request.mk "GET" "ok"), 1) := by
  have hrej := (c6_gatekeeper sampleGatekeeper emptyRW (Request.mk "GET" "bad") sampleNext).1 rfl
  have hacc := (c6_gatekeeper sampleGatekeeper emptyRW (Request.mk "GET" "ok") sampleNext).2 rfl
  exact ⟨hrej.1, hrej.2.2.1, hrej.2.2.2.1, hrej.2.2.2.2, hacc⟩

/-! ## Routes and the GorillaMux service factory (`part_001`)

Middleware values are identified by `Nat`.  The three registry tiers
are Go maps `map[string]Middleware`, modelled as association lists
whose list order stands for the map's (unspecified) iteration order.
The contents of a route's `Include`/`Exclude` slices are plain
`List String`s here; the aliasing behaviour of the slice headers is
modelled separately below for `updateRoutes`. -/

/-- `Route` (`part_001`), with the contents of the `Include` and
`Exclude` slices. -/
structure Route where
  name : String
  method : String
  path : String
  handler : Nat
  incl : List String
  excl : List String
deriving DecidableEq, Repr

/-- Go map insertion on an association list: overwrite the value when
the key is present, append otherwise. -/
def mapInsert (m : List (String × Nat)) (k : String) (v : Nat) : List (String × Nat) :=
  if (m.lookup k).isSome then m.map (fun p => if p.1 = k then (k, v) else p)
  else m ++ [(k, v)]

/-- The `gorillaMuxFactory` struct: the three middleware tiers. -/
structure gorillaMuxFactory where
  always : List (String × Nat)
  defaults : List (String × Nat)
  available : List (String × Nat)
deriving DecidableEq, Repr

/-- `FactoryForGorillaMux` (`part_001`): empty registries (the source
also returns a nil error unconditionally). -/
def FactoryForGorillaMux : gorillaMuxFactory :=
  { always := [], defaults := [], available := [] }

/-- `Always` registration: `f.always[name] = middleware`. -/
def gorillaMuxFactory.Always (f : gorillaMuxFactory) (name : String) (middleware : Nat) :
    gorillaMuxFactory :=
  { f with always := mapInsert f.always name middleware }

/-- `Default` registration: `f.defaults[name] = middleware`. -/
def gorillaMuxFactory.Default (f : gorillaMuxFactory) (name : String) (middleware : Nat) :
    gorillaMuxFactory :=
  { f with defaults := mapInsert f.defaults name middleware }

/-- `Available` registration: `f.available[name] = middleware`. -/
def gorillaMuxFactory.Available (f : gorillaMuxFactory) (name : String) (middleware : Nat) :
    gorillaMuxFactory :=
  { f with available := mapInsert f.available name middleware }

/-- The terminal element of a dispatch chain. -/
inductive Terminal where
  | routeHandler (id : Nat)
  | notFound
  | apiListing
  | subrouterWrap (pfx : String)
deriving DecidableEq, Repr

/-- One element of a negroni chain: a middleware, or a wrapped
terminal handler (`negroni.Wrap`). -/
inductive NegroniHandler where
  | middleware (id : Nat)
  | wrap (t : Terminal)
deriving DecidableEq, Repr

/-- The log records emitted while resolving a route's `Include` list
(`log.Errorf` / `log.Warnf` calls in `Make`). -/
inductive LogEvent where
  | conflict (name : String)
  | alreadyAlways (name : String)
  | alreadyDefault (name : String)
  | notRegistered (name : String)
deriving DecidableEq, Repr

/-- Insertion into the `excluded` set (`excluded[name] = struct{}{}`):
a Go `map[string]interface{}` used as a set of keys. -/
def setInsert (m : List String) (k : String) : List String :=
  if k ∈ m then m else m ++ [k]

/-- The `excluded` map built from `route.Exclude` in `Make`. -/
def buildExcluded (l : List String) : List String :=
  l.foldl setInsert []

/-- One iteration of the `for _, name := range route.Include` loop of
`Make`: skip (with a log record) names that are excluded, already in
the always- or default-tier, or not registered in the available tier;
append the available middleware otherwise. -/
def includeStep (f : gorillaMuxFactory) (excluded : List String)
    (acc : List NegroniHandler × List LogEvent) (name : String) :
    List NegroniHandler × List LogEvent :=
  if name ∈ excluded then (acc.1, acc.2 ++ [LogEvent.conflict name])
  else if (f.always.lookup name).isSome then (acc.1, acc.2 ++ [LogEvent.alreadyAlways name])
  else if (f.defaults.lookup name).isSome then (acc.1, acc.2 ++ [LogEvent.alreadyDefault name])
  else
    match f.available.lookup name with
    | none => (acc.1, acc.2 ++ [LogEvent.notRegistered name])
    | some middleware => (acc.1 ++ [NegroniHandler.middleware middleware], acc.2)

/-- The per-route middleware-chain computation of `Make`
(`part_001`): build the `excluded` set from `route.Exclude`; start
from the default-tier middleware minus the excluded ones; run the
`Include` loop; finally append `negroni.Wrap(subrouter)`, the terminal
carrying the route handler.  The second component is the trace of log
records.  (The source also builds an `included` map that it never
reads afterwards.) -/
def buildMiddlewares (f : gorillaMuxFactory) (route : Route) :
    List NegroniHandler × List LogEvent :=
  let excluded := buildExcluded route.excl
  let dflt := f.defaults.foldl
    (fun acc p => if p.1 ∈ excluded then acc else acc ++ [NegroniHandler.middleware p.2]) []
  let res := route.incl.foldl (includeStep f excluded) (dflt, [])
  (res.1 ++ [NegroniHandler.wrap (Terminal.routeHandler route.handler)], res.2)

/-- `updateRoutes` at the level of list contents: default the method
of a route with empty method to `GET` (`http.MethodGet`); everything
else is carried over. -/
def updateRoutes (routes : List Route) : List Route :=
  routes.map (fun r => { r with method := if r.method = "" then "GET" else r.method })

/-- The chain of middleware *always* applied: `negroni.New` over the
values of the always-tier map, in iteration order. -/
def alwaysChain (f : gorillaMuxFactory) : List NegroniHandler :=
  f.always.map (fun p => NegroniHandler.middleware p.2)

/-- One handler registration performed by `Make`, together with the
negroni chain a request dispatched to it executes:

* `subNotFound` — `routerWithPrefix.NotFoundHandler = always.With(Wrap(NotFoundHandler))`;
* `listing` — `routerWithPrefix.HandleFunc("/", APIListingHandler)`,
  a plain handler registration (its chain is just the listing handler);
* `pfxEntry` — `router.Path(urlPrefix).Handler(always.With(Wrap(routerWithPrefix)))`;
* `rootNotFound` — `router.NotFoundHandler = always.With(Wrap(NotFoundHandler))`;
* `staticFiles` — the `"Apis"` special case mounting a static directory;
* `routeReg` — `routerWithPrefix.Path("/" + route.Path).Handler(always.With(middlewares...)).Methods(route.Method)`. -/
inductive Registration where
  | subNotFound (pfx : String) (chain : List NegroniHandler)
  | listing (pfx : String) (chain : List NegroniHandler)
  | pfxEntry (pfx : String) (chain : List NegroniHandler)
  | rootNotFound (chain : List NegroniHandler)
  | staticFiles (dir : String)
  | routeReg (pfx name method path : String) (chain : List NegroniHandler)
deriving DecidableEq, Repr

/-- The registrations performed for one (already normalized) route:
an `"Apis"` route additionally mounts the static swagger directory
(and registers no handler function on its inner subrouter); every
route — `"Apis"` included — gets the chain registration
`always.With(middlewares...)` whose terminal wraps the subrouter
carrying the route handler. -/
def makeRoute (f : gorillaMuxFactory) (pfx : String) (route : Route) : List Registration :=
  (if route.name = "Apis" then [Registration.staticFiles "/milkyway/swagger-ui/"] else [])
  ++ [Registration.routeReg pfx route.name route.method route.path
        (alwaysChain f ++ (buildMiddlewares f route).1)]

/-- The registrations performed for one URL-prefix entry of the route
map: the subrouter not-found handler (always-wrapped), the listing
endpoint (NOT always-wrapped), the prefix entry route
(always-wrapped), the root not-found handler (always-wrapped), then
the normalized routes. -/
def makePfx (f : gorillaMuxFactory) (pr : String × List Route) : List Registration :=
  [Registration.subNotFound pr.1 (alwaysChain f ++ [NegroniHandler.wrap Terminal.notFound]),
   Registration.listing pr.1 [NegroniHandler.wrap Terminal.apiListing],
   Registration.pfxEntry pr.1 (alwaysChain f ++ [NegroniHandler.wrap (Terminal.subrouterWrap pr.1)]),
   Registration.rootNotFound (alwaysChain f ++ [NegroniHandler.wrap Terminal.notFound])]
  ++ (updateRoutes pr.2).foldl (fun acc route => acc ++ makeRoute f pr.1 route) []

/-- `gorillaMuxFactory.Make` (`part_001`): iterate the route map (the
list order stands for the map's unspecified iteration order),
performing the registrations of `makePfx` for each prefix.  The error
component mirrors the source's single `return router, nil`: `Make` has
no error path whatsoever — no construction failure is detected or
propagated. -/
def gorillaMuxFactory.Make (f : gorillaMuxFactory)
    (routeMap : List (String × List Route)) :
    List Registration × Option String :=
  (routeMap.foldl (fun acc pr => acc ++ makePfx f pr) [], none)

/-- The chain bound to a registration, when it has one. -/
def Registration.chainOf : Registration → Option (List NegroniHandler)
  | .subNotFound _ c => some c
  | .listing _ c => some c
  | .pfxEntry _ c => some c
  | .rootNotFound c => some c
  | .staticFiles _ => none
  | .routeReg _ _ _ _ c => some c

/-- Whether a registration is the per-prefix index/listing endpoint. -/
def Registration.isListing : Registration → Bool
  | .listing _ _ => true
  | _ => false

/-! ## Slice headers and the heap-level `updateRoutes` -/

/-- A Go slice header: backing array identifier, offset, length. -/
structure GoSlice where
  arr : Nat
  off : Nat
  len : Nat
deriving DecidableEq, Repr

/-- Reading the elements a slice header denotes in a heap of backing
arrays. -/
def readSlice (h : Nat → List String) (s : GoSlice) : List String :=
  ((h s.arr).drop s.off).take s.len

/-- Writing one element of a backing array (`callerSlice[i] = v`). -/
def heapWrite (h : Nat → List String) (a i : Nat) (v : String) : Nat → List String :=
  fun a2 => if a2 = a then (h a).set i v else h a2

/-- A route whose `Include`/`Exclude` fields are slice headers, as in
the Go struct. -/
structure RouteH where
  name : String
  method : String
  path : String
  handler : Nat
  incl : GoSlice
  excl : GoSlice
deriving DecidableEq, Repr

/-- The Go re-slicing expression `s[:]`: same backing array, same
offset, same length — a new header denoting the same storage, not a
copy of the elements. -/
def sliceFull (s : GoSlice) : GoSlice :=
  { arr := s.arr, off := s.off, len := s.len }

/-- `updateRoutes` (`part_001`) at the level of slice headers: copy
the route structs (`make` + `copy`), default an empty method to `GET`,
and re-assign `routes2[i].Include = routes[i].Include[:]` and likewise
for `Exclude` — the comment in the source says "manually copy the
arrays in lieu of deep copy", but `[:]` produces an aliasing header,
not a copy. -/
def updateRoutesH (routes : List RouteH) : List RouteH :=
  routes.map (fun r =>
    { r with
      method := if r.method = "" then "GET" else r.method
      incl := sliceFull r.incl
      excl := sliceFull r.excl })

/-! ## Spec-side chain definitions (for the refinement claim C3)

These definitions follow the specification's words ("Start with all
default-tier middleware whose name is not in Exclude-set.  For each
name in `Include`: if also in Exclude-set → skip with a logged
conflict; if already in always-tier or default-tier → skip with a
logged warning; otherwise resolve from available-tier — if absent,
skip with a logged error; else append.  Append the terminal route
handler as the final chain element."), to be compared with the
source-derived `buildMiddlewares`. -/

/-- Spec wording: the chain contributed by the `Include` list, in
order, with the four skip rules. -/
def specIncludeChain (f : gorillaMuxFactory) (excl : List String) :
    List String → List NegroniHandler
  | [] => []
  | n :: ns =>
    if n ∈ excl then specIncludeChain f excl ns
    else if (f.always.lookup n).isSome then specIncludeChain f excl ns
    else if (f.defaults.lookup n).isSome then specIncludeChain f excl ns
    else
      match f.available.lookup n with
      | none => specIncludeChain f excl ns
      | some m => NegroniHandler.middleware m :: specIncludeChain f excl ns

/-- Spec wording: the log records produced by the `Include` loop. -/
def specIncludeLogs (f : gorillaMuxFactory) (excl : List String) :
    List String → List LogEvent
  | [] => []
  | n :: ns =>
    if n ∈ excl then LogEvent.conflict n :: specIncludeLogs f excl ns
    else if (f.always.lookup n).isSome then LogEvent.alreadyAlways n :: specIncludeLogs f excl ns
    else if (f.defaults.lookup n).isSome then LogEvent.alreadyDefault n :: specIncludeLogs f excl ns
    else
      match f.available.lookup n with
      | none => LogEvent.notRegistered n :: specIncludeLogs f excl ns
      | some _ => specIncludeLogs f excl ns

/-- Spec wording: the whole effective chain of a route — the
not-excluded default-tier middleware, then the resolved `Include`
names in order, then the terminal route handler. -/
def specEffectiveChain (f : gorillaMuxFactory) (route : Route) : List NegroniHandler :=
  (f.defaults.filter (fun p => !(decide (p.1 ∈ route.excl)))).map
      (fun p => NegroniHandler.middleware p.2)
    ++ specIncludeChain f route.excl route.incl
    ++ [NegroniHandler.wrap (Terminal.routeHandler route.handler)]

/-! ## Lemmas about the chain computation -/

/-- Membership in `setInsert`. -/
theorem mem_setInsert (m : List String) (a n : String) :
    n ∈ setInsert m a ↔ (n ∈ m ∨ n = a) := by
  unfold setInsert
  split
  · rename_i h
    constructor
    · exact Or.inl
    · rintro (hm | rfl)
      · exact hm
      · exact h
  · simp

/-- The `excluded` set built in `Make` contains exactly the names of
the `Exclude` list. -/
theorem mem_buildExcluded (l : List String) (n : String) :
    n ∈ buildExcluded l ↔ n ∈ l := by
  have key : ∀ (l2 m : List String), n ∈ l2.foldl setInsert m ↔ (n ∈ m ∨ n ∈ l2) := by
    intro l2
    induction l2 with
    | nil => intro m; simp
    | cons a t ih =>
      intro m
      rw [List.foldl_cons, ih, mem_setInsert]
      simp [List.mem_cons, or_assoc]
  rw [buildExcluded, key]
  simp

/-- The defaults loop of `Make` is filtering followed by mapping. -/
theorem foldl_defaults_filter (excluded : List String) (ds : List (String × Nat)) :
    ∀ init : List NegroniHandler,
      ds.foldl
        (fun acc p => if p.1 ∈ excluded then acc else acc ++ [NegroniHandler.middleware p.2])
        init
      = init ++ (ds.filter (fun p => !(decide (p.1 ∈ excluded)))).map
          (fun p => NegroniHandler.middleware p.2) := by
  induction ds with
  | nil => intro init; simp
  | cons p ds ih =>
    intro init
    rw [List.foldl_cons]
    by_cases hp : p.1 ∈ excluded
    · rw [if_pos hp, ih]
      simp [List.filter_cons, hp]
    · rw [if_neg hp, ih]
      simp [List.filter_cons, hp]

/-- The `Include` loop of `Make` appends the spec-side chain and log
trace to the accumulator. -/
theorem foldl_includeStep (f : gorillaMuxFactory) (excluded : List String) :
    ∀ (l : List String) (hs : List NegroniHandler) (ls : List LogEvent),
      l.foldl (includeStep f excluded) (hs, ls)
        = (hs ++ specIncludeChain f excluded l, ls ++ specIncludeLogs f excluded l) := by
  intro l
  induction l with
  | nil =>
    intro hs ls
    simp [specIncludeChain, specIncludeLogs]
  | cons n ns ih =>
    intro hs ls
    rw [List.foldl_cons]
    by_cases hn : n ∈ excluded
    · simp only [includeStep, if_pos hn]
      rw [ih]
      simp [specIncludeChain, specIncludeLogs, hn]
    · cases hA : f.always.lookup n with
      | some m =>
        simp only [includeStep, if_neg hn, hA]
        rw [ih]
        simp [specIncludeChain, specIncludeLogs, hn, hA]
      | none =>
        cases hD : f.defaults.lookup n with
        | some m =>
          simp only [includeStep, if_neg hn, hA, hD]
          rw [ih]
          simp [specIncludeChain, specIncludeLogs, hn, hA, hD]
        | none =>
          cases hV : f.available.lookup n with
          | none =>
            simp only [includeStep, if_neg hn, hA, hD, hV]
            rw [ih]
            simp [specIncludeChain, specIncludeLogs, hn, hA, hD, hV]
          | some m =>
            simp only [includeStep, if_neg hn, hA, hD, hV]
            rw [ih]
            simp [specIncludeChain, specIncludeLogs, hn, hA, hD, hV]

/-- `specIncludeChain` only looks at membership in the exclusion
list. -/
theorem specIncludeChain_congr (f : gorillaMuxFactory) (e1 e2 : List String)
    (h : ∀ n, n ∈ e1 ↔ n ∈ e2) :
    ∀ l, specIncludeChain f e1 l = specIncludeChain f e2 l := by
  intro l
  induction l with
  | nil => rfl
  | cons n ns ih =>
    simp only [specIncludeChain, ih, h n]

/-- `specIncludeLogs` only looks at membership in the exclusion
list. -/
theorem specIncludeLogs_congr (f : gorillaMuxFactory) (e1 e2 : List String)
    (h : ∀ n, n ∈ e1 ↔ n ∈ e2) :
    ∀ l, specIncludeLogs f e1 l = specIncludeLogs f e2 l := by
  intro l
  induction l with
  | nil => rfl
  | cons n ns ih =>
    simp only [specIncludeLogs, ih, h n]

/-- Erasing an excluded name from the `Include` list leaves the
spec-side chain unchanged: an excluded name contributes nothing. -/
theorem specIncludeChain_erase (f : gorillaMuxFactory) (excl : List String) (n : String)
    (hn : n ∈ excl) :
    ∀ l, specIncludeChain f excl (l.erase n) = specIncludeChain f excl l := by
  intro l
  induction l with
  | nil => rfl
  | cons x xs ih =>
    by_cases hx : x = n
    · subst hx
      rw [List.erase_cons_head]
      simp [specIncludeChain, hn]
    · rw [List.erase_cons_tail]
      · simp only [specIncludeChain, ih]
      · simp [hx]

/-- A name in both lists produces a conflict record. -/
theorem conflict_mem_specIncludeLogs (f : gorillaMuxFactory) (excl : List String)
    (n : String) (hne : n ∈ excl) :
    ∀ l, n ∈ l → LogEvent.conflict n ∈ specIncludeLogs f excl l := by
  intro l
  induction l with
  | nil => intro h; cases h
  | cons x xs ih =>
    intro hmem
    rcases List.mem_cons.mp hmem with rfl | hx
    · simp [specIncludeLogs, hne]
    · have hin := ih hx
      simp only [specIncludeLogs]
      split
      · exact List.mem_cons_of_mem _ hin
      · split
        · exact List.mem_cons_of_mem _ hin
        · split
          · exact List.mem_cons_of_mem _ hin
          · split
            · exact List.mem_cons_of_mem _ hin
            · exact hin

/-- Source-vs-spec characterization of `buildMiddlewares`, for
arbitrary routes. -/
theorem buildMiddlewares_eq_spec (f : gorillaMuxFactory) (r : Route) :
    (buildMiddlewares f r).1 = specEffectiveChain f r
    ∧ (buildMiddlewares f r).2 = specIncludeLogs f r.excl r.incl := by
  have hmem : ∀ n, n ∈ buildExcluded r.excl ↔ n ∈ r.excl :=
    fun n => mem_buildExcluded r.excl n
  have hfilter :
      f.defaults.filter (fun p => !(decide (p.1 ∈ buildExcluded r.excl)))
        = f.defaults.filter (fun p => !(decide (p.1 ∈ r.excl))) := by
    apply List.filter_congr
    intro p _
    simp [hmem p.1]
  simp only [buildMiddlewares, foldl_defaults_filter, List.nil_append, foldl_includeStep]
  constructor
  · rw [specIncludeChain_congr f (buildExcluded r.excl) r.excl hmem,
      hfilter, specEffectiveChain, List.append_assoc]
  · rw [specIncludeLogs_congr f (buildExcluded r.excl) r.excl hmem]

/-- C3: the effective middleware chain computed by `Make` for a route
is: every default-tier middleware whose name is not in the route's
`Exclude` list, followed by the `Include` names resolved in order
(skipping names that are excluded, already in the always- or
default-tier, or unregistered, each with the corresponding log
record), followed by the terminal route handler; in particular a name
present in both `Include` and `Exclude` yields a conflict record and
contributes nothing to the chain (erasing it from `Include` leaves the
chain unchanged). -/
theorem c3_effective_chain (f : gorillaMuxFactory) (route : Route) :
    (buildMiddlewares f route).1 = specEffectiveChain f route
    ∧ (buildMiddlewares f route).2 = specIncludeLogs f route.excl route.incl
    ∧ ∀ n, n ∈ route.incl → n ∈ route.excl →
        LogEvent.conflict n ∈ (buildMiddlewares f route).2
        ∧ (buildMiddlewares f route).1 =
            (buildMiddlewares f { route with incl := route.incl.erase n }).1 := by
  refine ⟨(buildMiddlewares_eq_spec f route).1, (buildMiddlewares_eq_spec f route).2,
    fun n hincl hexcl => ⟨?_, ?_⟩⟩
  · rw [(buildMiddlewares_eq_spec f route).2]
    exact conflict_mem_specIncludeLogs f route.excl n hexcl route.incl hincl
  · rw [(buildMiddlewares_eq_spec f route).1,
      (buildMiddlewares_eq_spec f { route with incl := route.incl.erase n }).1,
      specEffectiveChain, specEffectiveChain]
    simp only
    rw [specIncludeChain_erase f route.excl n hexcl route.incl]

/-- Sample factory: a default-tier logger, two available-tier
middleware. -/
def sampleFactory : gorillaMuxFactory :=
  ((FactoryForGorillaMux.Default "middleware:logger" 1).Available
      "middleware:md5signature" 2).Available "middleware:on_leader" 3

/-- Sample route with a name that occurs in both `Include` and
`Exclude` (`middleware:md5signature`) and an unregistered included
name. -/
def sampleRoute : Route :=
  { name := "GetData"
    method := "GET"
    path := "getdata"
    handler := 9
    incl := ["middleware:md5signature", "middleware:on_leader", "middleware:missing"]
    excl := ["middleware:md5signature"] }

/-- Witness for C3 at the sample factory and route: the chain is the
kept default logger, the resolved `on_leader` middleware, and the
terminal handler; the conflicted `md5signature` name is absent and
produces a conflict record. -/
theorem c3_effective_chain_witness :
    (buildMiddlewares sampleFactory sampleRoute).1 =
      [NegroniHandler.middleware 1, NegroniHandler.middleware 3,
       NegroniHandler.wrap (Terminal.routeHandler 9)]
    ∧ LogEvent.conflict "middleware:md5signature" ∈
        (buildMiddlewares sampleFactory sampleRoute).2
    ∧ (buildMiddlewares sampleFactory sampleRoute).1 =
        (buildMiddlewares sampleFactory
          { sampleRoute with
            incl := sampleRoute.incl.erase "middleware:md5signature" }).1 := by
  have h := c3_effective_chain sampleFactory sampleRoute
  have hc := h.2.2 "middleware:md5signature" (by decide) (by decide)
  exact ⟨h.1.trans (by decide), hc.1, hc.2⟩

/-- C7: route normalization preserves the length and every field of
every route, except that an empty method becomes `GET`; the
`Include`/`Exclude` slice headers are carried over unchanged. -/
theorem c7_normalize_method (routes : List RouteH) :
    (updateRoutesH routes).length = routes.length
    ∧ ∀ i : Nat, (updateRoutesH routes)[i]? =
        routes[i]?.map (fun r0 =>
          { r0 with method := if r0.method = "" then "GET" else r0.method }) := by
  constructor
  · simp [updateRoutesH]
  · intro i
    simp only [updateRoutesH, List.getElem?_map]
    cases routes[i]? <;> rfl

/-- C2 model input: a route whose `Include` slice covers the single
element of backing array `0`, and whose `Exclude` slice is empty over
backing array `1`. -/
def callerRoute : RouteH :=
  { name := "R"
    method := ""
    path := "p"
    handler := 7
    incl := { arr := 0, off := 0, len := 1 }
    excl := { arr := 1, off := 0, len := 0 } }

/-- The caller's heap: backing array `0` holds
`["middleware:logger"]`. -/
def heap0 : Nat → List String :=
  fun a => if a = 0 then ["middleware:logger"] else []

/-- C2 (refuting the copy claim on the code): after normalization the
route's `Include` slice still denotes the caller's backing array, so
the caller's write `Include[0] = "middleware:other"` changes what the
normalized route's list reads — the lists share storage, contradicting
the claim (and the source's own "work on private copy" / "manually
copy the arrays" comments). -/
theorem c2_share_storage_bug :
    updateRoutesH [callerRoute] = [{ callerRoute with method := "GET" }]
    ∧ readSlice heap0 ({ callerRoute with method := "GET" } : RouteH).incl =
        ["middleware:logger"]
    ∧ readSlice (heapWrite heap0 0 0 "middleware:other")
        ({ callerRoute with method := "GET" } : RouteH).incl = ["middleware:other"]
    ∧ readSlice (heapWrite heap0 0 0 "middleware:other")
          ({ callerRoute with method := "GET" } : RouteH).incl ≠
        readSlice heap0 ({ callerRoute with method := "GET" } : RouteH).incl := by
  refine ⟨rfl, rfl, rfl, by decide⟩

/-! ## Registrations performed by `Make` -/

/-- A left fold that appends a block per element flattens to `bind`. -/
theorem foldl_append_bind {α β : Type} (g : α → List β) :
    ∀ (l : List α) (init : List β),
      l.foldl (fun acc x => acc ++ g x) init = init ++ l.flatMap g := by
  intro l
  induction l with
  | nil => intro init; simp
  | cons a t ih =>
    intro init
    rw [List.foldl_cons, ih]
    simp [List.flatMap_cons, List.append_assoc]

/-- C1 (amended): every registration performed by `Make` that carries
a chain — the per-route registrations, the two not-found handlers, and
the prefix entry — except the index/listing endpoint, has the
always-chain as a prefix of its chain: every always-tier middleware
executes for requests dispatched to it, regardless of the route's
`Include`/`Exclude`.  (The listing endpoint is registered without the
always chain; see the counterexample.) -/
theorem c1_always_runs_except_listing (f : gorillaMuxFactory)
    (routeMap : List (String × List Route)) (reg : Registration)
    (c : List NegroniHandler)
    (hreg : reg ∈ (gorillaMuxFactory.Make f routeMap).1)
    (hchain : reg.chainOf = some c)
    (hnl : reg.isListing = false) :
    ∃ rest, c = alwaysChain f ++ rest
      ∧ ∀ p ∈ f.always, NegroniHandler.middleware p.2 ∈ c := by
  have hregs : (gorillaMuxFactory.Make f routeMap).1 = routeMap.flatMap (makePfx f) := by
    simp [gorillaMuxFactory.Make, foldl_append_bind]
  rw [hregs] at hreg
  rcases List.mem_flatMap.mp hreg with ⟨pr, hpr, hmem⟩
  have hrest : ∃ rest, c = alwaysChain f ++ rest := by
    rw [makePfx] at hmem
    rcases List.mem_append.mp hmem with hfix | hroutes
    · simp only [List.mem_cons, List.not_mem_nil, or_false] at hfix
      rcases hfix with rfl | rfl | rfl | rfl
      · simp only [Registration.chainOf, Option.some.injEq] at hchain
        exact ⟨[NegroniHandler.wrap Terminal.notFound], hchain.symm⟩
      · simp [Registration.isListing] at hnl
      · simp only [Registration.chainOf, Option.some.injEq] at hchain
        exact ⟨[NegroniHandler.wrap (Terminal.subrouterWrap pr.1)], hchain.symm⟩
      · simp only [Registration.chainOf, Option.some.injEq] at hchain
        exact ⟨[NegroniHandler.wrap Terminal.notFound], hchain.symm⟩
    · rw [foldl_append_bind, List.nil_append] at hroutes
      rcases List.mem_flatMap.mp hroutes with ⟨route, hroute, hmr⟩
      rw [makeRoute] at hmr
      rcases List.mem_append.mp hmr with hstat | hrr
      · rcases hs : decide (route.name = "Apis") with _ | _
        · rw [if_neg (of_decide_eq_false hs)] at hstat
          cases hstat
        · rw [if_pos (of_decide_eq_true hs)] at hstat
          simp only [List.mem_cons, List.not_mem_nil, or_false] at hstat
          subst hstat
          simp [Registration.chainOf] at hchain
      · simp only [List.mem_cons, List.not_mem_nil, or_false] at hrr
        subst hrr
        simp only [Registration.chainOf, Option.some.injEq] at hchain
        exact ⟨(buildMiddlewares f route).1, hchain.symm⟩
  rcases hrest with ⟨rest, hrestEq⟩
  refine ⟨rest, hrestEq, fun p hp => ?_⟩
  rw [hrestEq]
  exact List.mem_append_left _ (List.mem_map.mpr ⟨p, hp, rfl⟩)

/-- A factory with one always-tier middleware registered. -/
def alwaysFactory : gorillaMuxFactory :=
  FactoryForGorillaMux.Always "middleware:logger" 0

/-- Witness for the amended C1: at the concrete factory with one
always middleware, the root not-found registration produced by `Make`
carries the always middleware in its chain. -/
theorem c1_always_runs_witness :
    ∃ rest,
      [NegroniHandler.middleware 0, NegroniHandler.wrap Terminal.notFound] =
        alwaysChain alwaysFactory ++ rest
      ∧ ∀ p ∈ alwaysFactory.always,
          NegroniHandler.middleware p.2 ∈
            [NegroniHandler.middleware 0, NegroniHandler.wrap Terminal.notFound] :=
  c1_always_runs_except_listing alwaysFactory [("test", [])]
    (Registration.rootNotFound
      [NegroniHandler.middleware 0, NegroniHandler.wrap Terminal.notFound])
    [NegroniHandler.middleware 0, NegroniHandler.wrap Terminal.notFound]
    (by decide) rfl rfl

/-- C1 counterexample: with an always-tier middleware registered,
`Make` registers the per-prefix index/listing endpoint with a chain
that does not contain that middleware — so the always middleware does
not run for requests to the listing endpoint, refuting the claim as
stated. -/
theorem c1_listing_counterexample :
    Registration.listing "test" [NegroniHandler.wrap Terminal.apiListing] ∈
      (gorillaMuxFactory.Make alwaysFactory [("test", [])]).1
    ∧ ("middleware:logger", 0) ∈ alwaysFactory.always
    ∧ NegroniHandler.middleware 0 ∉ [NegroniHandler.wrap Terminal.apiListing] := by
  decide

/-- An option that fails, for exercising the abort path of `New`. -/
def failingOpt : ServerImpl → OptOutcome :=
  fun _ => OptOutcome.err "bad option"

/-- C8: `New` aborts on the first failing option, returning that error
and no server (the later `ServerAddress` option is never applied); but
`Make` has no error path at all — its error component is `nil` for
every factory and every route table, including the table whose prefix
`"v1/{"` produces a malformed (unbalanced-brace) gorilla-mux path
template, so a construction error there is silently surfaced as
success. -/
theorem c8_make_never_errors :
    New 0 [failingOpt, ServerAddress "0.0.0.0:8080"] = NewOutcome.err "bad option"
    ∧ (gorillaMuxFactory.Make alwaysFactory [("v1/\x7b", [sampleRoute])]).2 = none
    ∧ ∀ (f : gorillaMuxFactory) (routeMap : List (String × List Route)),
        (gorillaMuxFactory.Make f routeMap).2 = none :=
  ⟨rfl, rfl, fun _ _ => rfl⟩

end OrderSpec
